import Mathlib

/-!
Shallow embedding of the sledge protocol client and of the persistence
layer's `addHack`, written from the TypeScript source.

The repository contains two variants of `SledgeClient`:

* a single-channel variant with one `Synchronize` broadcast channel whose
  `subscribeSynchronize` returns a delete-based unsubscribe capability
  (`delete arr[i]` leaves a hole that the fan-out's `if (notify)` test
  skips), and
* a two-channel variant with `SynchronizeShared` / `SynchronizeAdmin`
  broadcast channels (whose subscribe methods return nothing) plus a
  connection-status tracker whose `subscribeStatus` returns a filter-based
  unsubscribe capability (it reassigns the subscriber array to a filtered
  copy).

Callbacks are identified by numeric ids; invoking a callback is recorded as
a pair of its id and the argument it received.  Promises are identified by
the numeric id of their resolver.
-/

/-- A response delivered on one of the response event channels.  The
listener installed by `setupResolverDispatch` reads `data.returnId` and
hands the whole record to the resolver. -/
structure Response where
  returnId : String
  body : Nat
deriving DecidableEq

/-- The pending-request table `responseResolvers : Map<string, resolver>`,
modelled as a function from correlation tokens to the id of the registered
resolver (if any). -/
def PendingTable : Type := String → Option Nat

/-- `Map.set` (with `some v`) and `Map.delete` (with `none`) on the
pending-request table. -/
def updateTable (f : PendingTable) (k : String) (v : Option Nat) : PendingTable :=
  fun q => if q = k then v else f q

/-- Body of the listener that `setupResolverDispatch` installs for every
response event name:

```
let resolver = this.responseResolvers.get(data.returnId);
if (resolver) {
  resolver(data);
  this.responseResolvers.delete(data.returnId);
} else {
  throw new Error("Got response with unknown returnId: " + data.returnId);
}
```

Returns the table after the event, the list of resolver invocations it
performed, and the message of the error it threw (if any). -/
def onResponse (table : PendingTable) (data : Response) :
    PendingTable × List (Nat × Response) × Option String :=
  match table data.returnId with
  | some resolver => (updateTable table data.returnId none, [(resolver, data)], none)
  | none => (table, [], some ("Got response with unknown returnId: " ++ data.returnId))

/-- The externally observable steps of `sendAndAwait`, in the order the
code performs them. -/
inductive SendStep where
  | genToken (t : String)
  | emitEnvelope (eventName : String) (payload : Nat) (t : String)
  | registerPending (t : String)
  | returnHandle (pid : Nat)
deriving DecidableEq

/-- `sendAndAwait(eventName, data)` from both client variants:

```
let returnId = this.generateUniqueReturnId();
this.socket.emit(eventName, {...data, returnId});
return new Promise( (resolve, reject) => {
  this.responseResolvers.set(returnId, resolve);
});
```

`freshTok` is the token produced by `generateUniqueReturnId` and `pid` the
id of the resolver of the freshly allocated promise.  The `Promise`
executor runs synchronously at construction, so the `set` happens before
`sendAndAwait` returns the promise — but after the `emit`.  Returns the
table after the call and the ordered step trace. -/
def sendAndAwait (eventName : String) (payload : Nat) (freshTok : String) (pid : Nat)
    (table : PendingTable) : PendingTable × List SendStep :=
  (updateTable table freshTok (some pid),
    [ SendStep.genToken freshTok,
      SendStep.emitEnvelope eventName payload freshTok,
      SendStep.registerPending freshTok,
      SendStep.returnHandle pid ])

/-- `SledgeStatus` from the two-channel variant. -/
inductive SledgeStatus where
  | Connecting
  | Connected
  | Reconnecting
  | Disconnected
deriving DecidableEq

/-- The status-related state of a two-channel client: the `status` field and
the `statusSubscribers` array (which `subscribeStatus` pushes onto — it
never contains holes). -/
structure StatusClient where
  status : SledgeStatus
  statusSubscribers : List Nat

/-- A freshly constructed client: the field initializer is
`status : SledgeStatus = SledgeStatus.Connecting` and the constructor sets
`this.statusSubscribers = []`. -/
def newStatusClient : StatusClient :=
  { status := SledgeStatus.Connecting, statusSubscribers := [] }

/-- `dispatchStatus`: `for (let d of this.statusSubscribers) if (d) d(this.status)`.
Every entry of the array is a real callback, so each is invoked with the
current status. -/
def dispatchStatus (c : StatusClient) : List (Nat × SledgeStatus) :=
  c.statusSubscribers.map (fun d => (d, c.status))

/-- The transport lifecycle events the constructor listens to. -/
inductive LifecycleEvent where
  | connect
  | reconnecting
  | reconnect_failed

/-- The three lifecycle listeners installed by the constructor: each sets
`this.status` and then calls `dispatchStatus()`.  Returns the new client
state and the status-subscriber invocations. -/
def onLifecycle (c : StatusClient) : LifecycleEvent → StatusClient × List (Nat × SledgeStatus)
  | LifecycleEvent.connect =>
    let c2 : StatusClient := { c with status := SledgeStatus.Connected }
    (c2, dispatchStatus c2)
  | LifecycleEvent.reconnecting =>
    let c2 : StatusClient := { c with status := SledgeStatus.Reconnecting }
    (c2, dispatchStatus c2)
  | LifecycleEvent.reconnect_failed =>
    let c2 : StatusClient := { c with status := SledgeStatus.Disconnected }
    (c2, dispatchStatus c2)

/-- What a subscriber callback does when invoked (beyond receiving the
event): `throws` models the callback throwing an exception; `deletes`
models it synchronously invoking delete-based unsubscribe capabilities
(`delete arr[j]`) for the listed slot indices. -/
structure CbBehavior where
  throws : Bool
  deletes : List Nat
deriving DecidableEq

/-- A callback that returns normally and unsubscribes nothing. -/
def inertCb : CbBehavior := { throws := false, deletes := [] }

/-- Effect of the listed `delete arr[j]` statements: each clears slot `j`
to a hole, never changing the array length (`List.set` out of range is a
no-op, as is `delete` past the end). -/
def applyDeletes (idxs : List Nat) (arr : List (Option Nat)) : List (Option Nat) :=
  idxs.foldl (fun a j => a.set j none) arr

/-- The broadcast fan-out loop shared by all broadcast listeners:

```
for (let notify of subs) {
  if (notify) notify(e);
}
```

The `for...of` array iterator reads the live array slot by slot; a hole
(`undefined` after a `delete`) fails the `if (notify)` test and is skipped.
An invoked callback runs synchronously: if it throws, no handler catches
the exception, so the loop aborts; otherwise any unsubscriptions it
performed take effect on the array before the loop continues.  `fuel`
bounds the recursion; the loop itself stops when the index reaches the
array length (which the modelled callback effects never change). -/
def fanOutAux {α : Type} (beh : Nat → CbBehavior) (e : α) :
    Nat → List (Option Nat) → Nat → List (Nat × α) × Bool
  | 0, _, _ => ([], false)
  | fuel + 1, arr, i =>
    match arr[i]? with
    | none => ([], false)
    | some none => fanOutAux beh e fuel arr (i + 1)
    | some (some d) =>
      if (beh d).throws then ([(d, e)], true)
      else
        let rest := fanOutAux beh e fuel (applyDeletes (beh d).deletes arr) (i + 1)
        ((d, e) :: rest.1, rest.2)

/-- One full fan-out pass over the subscriber array, starting at index 0.
Returns the invocation list (callback id together with the payload it was
handed) and whether an exception escaped the loop. -/
def fanOut {α : Type} (beh : Nat → CbBehavior) (e : α) (arr : List (Option Nat)) :
    List (Nat × α) × Bool :=
  fanOutAux beh e arr.length arr 0

/-- The live (non-hole) subscribers of an array, in registration order. -/
def actives : List (Option Nat) → List Nat
  | [] => []
  | none :: l => actives l
  | some d :: l => d :: actives l

/-- `dispatchStatus` under reentrancy, for the two-channel variant.  The
`for...of` loop captures the array object `this.statusSubscribers` once;
the unsubscribe capability returned by `subscribeStatus` *reassigns* the
field to a filtered copy, which does not affect the iteration already in
progress.  `snapshot` is the array the loop iterates, `cur` the current
value of the field, and `eff d` the reassignments callback `d` performs on
the field during its invocation.  Returns the invocations of the pass and
the final value of the field. -/
def statusFanOutSnapshot (eff : Nat → List Nat → List Nat) (s : SledgeStatus) :
    List Nat → List Nat → List (Nat × SledgeStatus) × List Nat
  | [], cur => ([], cur)
  | d :: rest, cur =>
    let out := statusFanOutSnapshot eff s rest (eff d cur)
    ((d, s) :: out.1, out.2)

/-- `subscribeSynchronize(notify)` from the single-channel variant:

```
let i = this.synchronizeSubscribers.length;
this.synchronizeSubscribers[i] = notify;
return () => { delete this.synchronizeSubscribers[i]; };
```

Writing at index `length` appends; the returned capability closes over the
index `i`. -/
def subscribeSynchronize (notify : Nat) (subs : List (Option Nat)) : List (Option Nat) × Nat :=
  (subs ++ [some notify], subs.length)

/-- Invoking the capability returned by `subscribeSynchronize`:
`delete this.synchronizeSubscribers[i]` clears slot `i` to a hole. -/
def unsubscribeSynchronize (i : Nat) (subs : List (Option Nat)) : List (Option Nat) :=
  subs.set i none

/-- `subscribeStatus(notify)` from the two-channel variant:
`this.statusSubscribers.push(notify)` and a returned capability that
filters `notify` out. -/
def subscribeStatus (notify : Nat) (subs : List Nat) : List Nat × Nat :=
  (subs ++ [notify], notify)

/-- Invoking the capability returned by `subscribeStatus`:
`this.statusSubscribers = this.statusSubscribers.filter(n => n !== notify)`. -/
def unsubscribeStatus (notify : Nat) (subs : List Nat) : List Nat :=
  subs.filter (fun n => n != notify)

/-- `subscribeSyncAdmin(notify)` from the two-channel variant: it pushes
the callback and has no return statement, so it evaluates to `undefined` —
modelled as `none`: no unsubscribe capability is handed back. -/
def subscribeSyncAdmin (notify : Nat) (subs : List Nat) : List Nat × Option Unit :=
  (subs ++ [notify], none)

/-- `subscribeSyncShared(notify)` from the two-channel variant: same shape
as `subscribeSyncAdmin`, no return statement. -/
def subscribeSyncShared (notify : Nat) (subs : List Nat) : List Nat × Option Unit :=
  (subs ++ [notify], none)

/-- JavaScript `ToInt32`: interpret `n mod 2^32` as a signed 32-bit
value. -/
def jsToInt32 (n : Nat) : Int :=
  if n % 2 ^ 32 < 2 ^ 31 then ((n % 2 ^ 32 : Nat) : Int)
  else ((n % 2 ^ 32 : Nat) : Int) - 2 ^ 32

/-- `Date.now() & ~0xFF` from the single-channel variant's
`generateUniqueReturnId`: both operands are converted to int32
(`~0xFF` has bit pattern `0xFFFFFF00`), the bitwise and clears the low
byte of the millisecond timestamp. -/
def maskedTime (now : Nat) : Int :=
  jsToInt32 (Nat.land (now % 2 ^ 32) 0xFFFFFF00)

/-- `Math.floor(Math.random()*256)` where the double returned by
`Math.random()` is `u / 2^53` (doubles in `[0,1)` produced by the usual
53-bit generators). -/
def randomByte (u : Nat) : Nat := u * 256 / 2 ^ 53

/-- `generateUniqueReturnId` from the single-channel variant:

```
let entropy = (Date.now() & ~0xFF) + Math.floor(Math.random()*256);
return entropy.toString(16);
```

Number-to-hex-string conversion is injective, so two tokens are equal
exactly when the two entropy values are; the token is therefore modelled
by the entropy value itself. -/
def generateUniqueReturnId (now u : Nat) : Int :=
  maskedTime now + (randomByte u : Int)

/-- Hex digits of a natural number, exactly as JavaScript's
`Number.prototype.toString(16)` prints a nonnegative integer: lowercase
digits, no leading zeros. -/
def natToHex (n : Nat) : String := String.mk (Nat.toDigits 16 n)

/-- JavaScript `String.prototype.slice(-6)`: the last six characters of a
string (the whole string when it is shorter than six characters). -/
def sliceLast6 (s : String) : String :=
  String.mk (s.data.drop (s.data.length - 6))

/-- `generateUniqueReturnId` from the two-channel variant:

```
return Date.now().toString(16).slice(-6) + Math.random().toString(16).slice(-6);
```

`randHex` stands for the string `Math.random().toString(16)` printed for
the draw (the hex rendering of the double returned by `Math.random()`). -/
def generateUniqueReturnIdTwoChannel (now : Nat) (randHex : String) : String :=
  sliceLast6 (natToHex now) ++ sliceLast6 randHex

/-- The SQL text of the prepared statement in `DatabaseConnection.addHack`. -/
def addHackSql : String :=
  "INSERT INTO hacks(name, description, location)VALUES (?,?,?);"

/-- Number of `?` placeholders a statement declares. -/
def countPlaceholders (sql : String) : Nat :=
  (sql.toList.filter (fun ch => ch = '?')).length

/-- The error raised by better-sqlite3's `Statement.run` when the number of
bound values differs from the number of placeholders (it raises a
`RangeError: Too few parameter values were provided` before executing). -/
inductive SqlError where
  | tooFewBindValues
deriving DecidableEq

/-- A `Hack` record as passed to `addHack`. -/
structure Hack where
  name : String
  description : String
  location : Int

/-- The bind values `addHack` passes:
`stmt.run([hack.name, hack.description])` — the location is never bound. -/
def addHackBinds (hack : Hack) : List String :=
  [hack.name, hack.description]

/-- `Statement.run(binds)` against a table modelled as a list of rows (a
row being the list of bound values): the statement executes and inserts
only when the bind count matches the placeholder count, otherwise it
raises and leaves the table untouched. -/
def stmtRun (placeholders : Nat) (binds : List String) (rows : List (List String)) :
    Except SqlError (List (List String)) :=
  if binds.length = placeholders then Except.ok (rows ++ [binds])
  else Except.error SqlError.tooFewBindValues

/-- `DatabaseConnection.addHack(hack)`: prepare the three-placeholder
INSERT and run it with two bind values. -/
def addHack (hack : Hack) (rows : List (List String)) : Except SqlError (List (List String)) :=
  stmtRun (countPlaceholders addHackSql) (addHackBinds hack) rows

/-- Concrete pending table for the C1 witness: token `"tok"` registered to
resolver `7`. -/
def c1Table : PendingTable :=
  updateTable (fun _ => none) "tok" (some 7)

/-- Concrete empty pending table for the C2 witness. -/
def c2Table : PendingTable := fun _ => none

/-- Concrete behavior assignment for the C5 witness: every callback returns
normally and unsubscribes nothing. -/
def c5BehInert : Nat → CbBehavior := fun _ => inertCb

/-- Concrete behavior assignment for C7: callback `0` throws, all others
are inert. -/
def c7Beh : Nat → CbBehavior :=
  fun d => if d = 0 then { throws := true, deletes := [] } else inertCb

/-- Concrete behavior assignment for the C8 witness: callback `9`
unsubscribes the subscriber in slot `2`, all others are inert. -/
def c8Beh : Nat → CbBehavior :=
  fun d => if d = 9 then { throws := false, deletes := [2] } else inertCb

/-- Concrete reentrant effect for C8, in the two-channel variant's status
fan-out: the callback of subscriber `0` invokes the filter-based
unsubscribe capability of subscriber `1`. -/
def c8Eff : Nat → List Nat → List Nat :=
  fun d cur => if d = 0 then cur.filter (fun n => n != 1) else cur

/- ======================================================================
   Theorems
   ====================================================================== -/

/-- Claim C1: if a response arrives bearing a correlation token that is
pending in the table with resolver `pid`, the handler settles exactly that
resolver, exactly once, with the full response object as payload, and the
entry for the token is removed from the table. -/
theorem c1_known_token_settles_once (table : PendingTable) (data : Response) (pid : Nat)
    (h : table data.returnId = some pid) :
    onResponse table data = (updateTable table data.returnId none, [(pid, data)], none) ∧
      (onResponse table data).1 data.returnId = none := by
  unfold onResponse
  rw [h]
  exact ⟨rfl, by simp [updateTable]⟩

theorem c1_witness :
    onResponse c1Table ⟨"tok", 3⟩ = (updateTable c1Table "tok" none, [(7, ⟨"tok", 3⟩)], none) ∧
      (onResponse c1Table ⟨"tok", 3⟩).1 "tok" = none :=
  c1_known_token_settles_once c1Table ⟨"tok", 3⟩ 7 (by decide)

/-- Claim C2: if a response arrives bearing a token that matches no pending
entry, the handler throws an error naming the token, performs no resolver
invocation, and leaves the pending-request table unchanged. -/
theorem c2_unknown_token_reports (table : PendingTable) (data : Response)
    (h : table data.returnId = none) :
    onResponse table data =
      (table, [], some ("Got response with unknown returnId: " ++ data.returnId)) := by
  unfold onResponse
  rw [h]

theorem c2_witness :
    onResponse c2Table ⟨"zz", 0⟩ =
      (c2Table, [], some ("Got response with unknown returnId: " ++ "zz")) :=
  c2_unknown_token_reports c2Table ⟨"zz", 0⟩ rfl

/-- Claim C3 counterexample: `sendAndAwait` does not perform the steps in
the claimed order generate / register / emit / return — at a concrete call
its trace differs from that sequence, because the code emits the envelope
before registering the pending entry. -/
theorem c3_counterexample :
    decide ((sendAndAwait "RateHack" 0 "tok" 0 c2Table).2 =
      [SendStep.genToken "tok", SendStep.registerPending "tok",
        SendStep.emitEnvelope "RateHack" 0 "tok", SendStep.returnHandle 0]) = false := by
  decide

/-- Claim C3 (amended): every send method generates a fresh token, then
emits the envelope (payload plus token) under the outbound event name,
then registers the pending entry for the token, and finally returns the
asynchronous handle; the registered entry maps the token to the resolver
of the returned handle. -/
theorem c3_send_steps (eventName : String) (payload : Nat) (freshTok : String) (pid : Nat)
    (table : PendingTable) :
    (sendAndAwait eventName payload freshTok pid table).2 =
      [SendStep.genToken freshTok, SendStep.emitEnvelope eventName payload freshTok,
        SendStep.registerPending freshTok, SendStep.returnHandle pid] ∧
      (sendAndAwait eventName payload freshTok pid table).1 freshTok = some pid := by
  exact ⟨rfl, by simp [sendAndAwait, updateTable]⟩

/-- Claim C4: the connection status starts at Connecting at construction; a
`connect` event sets it to Connected, `reconnecting` to Reconnecting and
`reconnect_failed` to Disconnected, and each transition synchronously
notifies every current status subscriber with the new status value. -/
theorem c4_status_machine :
    newStatusClient.status = SledgeStatus.Connecting ∧
      (∀ c : StatusClient, onLifecycle c LifecycleEvent.connect =
        ({ c with status := SledgeStatus.Connected },
          c.statusSubscribers.map (fun d => (d, SledgeStatus.Connected)))) ∧
      (∀ c : StatusClient, onLifecycle c LifecycleEvent.reconnecting =
        ({ c with status := SledgeStatus.Reconnecting },
          c.statusSubscribers.map (fun d => (d, SledgeStatus.Reconnecting)))) ∧
      (∀ c : StatusClient, onLifecycle c LifecycleEvent.reconnect_failed =
        ({ c with status := SledgeStatus.Disconnected },
          c.statusSubscribers.map (fun d => (d, SledgeStatus.Disconnected)))) := by
  refine ⟨rfl, fun c => rfl, fun c => rfl, fun c => rfl⟩

/-- Claim C10: `DatabaseConnection.addHack` prepares an INSERT declaring
three placeholders but binds only two values, so for every hack and every
table state the run raises and no row is inserted — in particular the
location column is never populated by this method. -/
theorem c10_addHack_always_errors (hack : Hack) (rows : List (List String)) :
    addHack hack rows = Except.error SqlError.tooFewBindValues ∧
      countPlaceholders addHackSql = 3 ∧ (addHackBinds hack).length = 2 := by
  exact ⟨rfl, rfl, rfl⟩

/-- Reading a slot splits the list at that index. -/
theorem getElem?_drop_cons {α : Type} (l : List α) :
    ∀ (i : Nat) (y : α), l[i]? = some y → l.drop i = y :: l.drop (i + 1) := by
  induction l with
  | nil => intro i y h; simp at h
  | cons a t ih =>
    intro i y h
    cases i with
    | zero => simp at h; simp [h]
    | succ n =>
      simp only [List.getElem?_cons_succ] at h
      simpa [List.drop_succ_cons] using ih n y h

/-- Splitting the drop of a list at a cons recovers the slot and the
further drop. -/
theorem drop_cons_parts {α : Type} (l : List α) :
    ∀ (i : Nat) (y : α) (t : List α), l.drop i = y :: t →
      l[i]? = some y ∧ l.drop (i + 1) = t := by
  induction l with
  | nil => intro i y t h; simp at h
  | cons a l' ih =>
    intro i y t h
    cases i with
    | zero =>
      simp only [List.drop_zero] at h
      injection h with h1 h2
      subst h1
      subst h2
      simp
    | succ n =>
      simp only [List.drop_succ_cons] at h
      simpa [List.drop_succ_cons] using ih n y t h

theorem applyDeletes_nil (arr : List (Option Nat)) : applyDeletes [] arr = arr := rfl

theorem applyDeletes_length (idxs : List Nat) :
    ∀ arr : List (Option Nat), (applyDeletes idxs arr).length = arr.length := by
  induction idxs with
  | nil => intro arr; rfl
  | cons j t ih =>
    intro arr
    have : applyDeletes (j :: t) arr = applyDeletes t (arr.set j none) := rfl
    rw [this, ih, List.length_set]

/-- A member of the live subscribers sits in some slot. -/
theorem actives_mem_getElem (t : Nat) :
    ∀ l : List (Option Nat), t ∈ actives l → ∃ p : Nat, l[p]? = some (some t) := by
  intro l
  induction l with
  | nil => intro h; simp [actives] at h
  | cons x l' ih =>
    intro h
    cases x with
    | none =>
      obtain ⟨p, hp⟩ := ih (by simpa [actives] using h)
      exact ⟨p + 1, by simpa using hp⟩
    | some d =>
      rcases (by simpa [actives] using h : t = d ∨ t ∈ actives l') with h1 | h1
      · exact ⟨0, by simp [h1]⟩
      · obtain ⟨p, hp⟩ := ih h1
        exact ⟨p + 1, by simpa using hp⟩

/-- A fan-out pass over a stretch of inert callbacks invokes exactly the
live subscribers from the start index on, in order, each with the
payload. -/
theorem fanOutAux_inert {α : Type} (beh : Nat → CbBehavior) (e : α) :
    ∀ (fuel : Nat) (arr : List (Option Nat)) (i : Nat),
      arr.length - i ≤ fuel →
      (∀ d ∈ actives (arr.drop i), beh d = inertCb) →
      fanOutAux beh e fuel arr i = ((actives (arr.drop i)).map (fun s => (s, e)), false) := by
  intro fuel
  induction fuel with
  | zero =>
    intro arr i hle _
    have hnil : arr.drop i = [] := List.drop_eq_nil_of_le (by omega)
    simp [fanOutAux, hnil, actives]
  | succ fuel ih =>
    intro arr i hle hin
    cases harr : arr[i]? with
    | none =>
      have hlen : arr.length ≤ i := by
        by_contra hlt
        push_neg at hlt
        have h := List.getElem?_eq_getElem hlt
        rw [harr] at h
        exact Option.noConfusion h
      simp [fanOutAux, harr, List.drop_eq_nil_of_le hlen, actives]
    | some o =>
      have hi : i < arr.length := by
        rcases List.getElem?_eq_some.mp harr with ⟨h, _⟩
        exact h
      cases o with
      | none =>
        have hd : arr.drop i = none :: arr.drop (i + 1) := getElem?_drop_cons arr i none harr
        have hrec := ih arr (i + 1) (by omega) (by rw [hd] at hin; simpa [actives] using hin)
        simp [fanOutAux, harr, hrec, hd, actives]
      | some d =>
        have hd : arr.drop i = some d :: arr.drop (i + 1) :=
          getElem?_drop_cons arr i (some d) harr
        have hbd : beh d = inertCb := hin d (by rw [hd]; simp [actives])
        have hrec := ih arr (i + 1) (by omega)
          (by rw [hd] at hin; intro a ha; exact hin a (by simp [actives, ha]))
        simp [fanOutAux, harr, hbd, inertCb, applyDeletes_nil, hrec, hd, actives]

/-- Claim C5: a broadcast arriving with the currently registered
subscribers (all of which return normally and do not mutate the list
mid-pass) invokes each of them synchronously, exactly once, in
registration order, with the identical payload, and the pass completes
without an escaping exception. -/
theorem c5_broadcast_fanout {α : Type} (beh : Nat → CbBehavior) (e : α)
    (arr : List (Option Nat)) (h : ∀ d ∈ actives arr, beh d = inertCb) :
    fanOut beh e arr = ((actives arr).map (fun s => (s, e)), false) := by
  have := fanOutAux_inert beh e arr.length arr 0 (by omega) (by simpa using h)
  simpa [fanOut] using this

theorem c5_witness :
    fanOut c5BehInert (7 : Nat) [some 1, none, some 2] = ([(1, 7), (2, 7)], false) := by
  have := c5_broadcast_fanout c5BehInert (7 : Nat) [some 1, none, some 2] (by decide)
  simpa [actives] using this

/-- A fan-out pass that reaches a throwing callback after a stretch of
inert ones invokes the inert live subscribers, then the thrower, and
aborts: the exception escapes the loop. -/
theorem fanOutAux_throw {α : Type} (beh : Nat → CbBehavior) (e : α) :
    ∀ (fuel : Nat) (arr : List (Option Nat)) (i : Nat) (xs : List (Option Nat)) (t : Nat)
      (ys : List (Option Nat)),
      arr.length - i ≤ fuel →
      arr.drop i = xs ++ some t :: ys →
      (∀ d ∈ actives xs, beh d = inertCb) →
      (beh t).throws = true →
      fanOutAux beh e fuel arr i = ((actives xs).map (fun s => (s, e)) ++ [(t, e)], true) := by
  intro fuel
  induction fuel with
  | zero =>
    intro arr i xs t ys hle hd _ _
    exfalso
    have := congrArg List.length hd
    simp [List.length_drop] at this
    omega
  | succ fuel ih =>
    intro arr i xs t ys hle hd hxs ht
    cases xs with
    | nil =>
      simp only [List.nil_append] at hd
      obtain ⟨h1, _⟩ := drop_cons_parts arr i (some t) ys hd
      simp [fanOutAux, h1, ht, actives]
    | cons x xs' =>
      have hd' : arr.drop i = x :: (xs' ++ some t :: ys) := by simpa using hd
      obtain ⟨h1, h2⟩ := drop_cons_parts arr i x _ hd'
      have hi : i < arr.length := by
        rcases List.getElem?_eq_some.mp h1 with ⟨h, _⟩
        exact h
      cases x with
      | none =>
        have hrec := ih arr (i + 1) xs' t ys (by omega) h2 (by
          intro a ha; exact hxs a (by simpa [actives] using ha)) ht
        simp [fanOutAux, h1, hrec, actives]
      | some d =>
        have hbd : beh d = inertCb := hxs d (by simp [actives])
        have hrec := ih arr (i + 1) xs' t ys (by omega) h2 (by
          intro a ha; exact hxs a (by simp [actives, ha])) ht
        simp [fanOutAux, h1, hbd, inertCb, applyDeletes_nil, hrec, actives]

/-- Claim C7 counterexample: with two live subscribers where the first one
throws, the second — not yet invoked in the same pass — is never invoked:
the fan-out is aborted rather than isolated per subscriber (the loop body
has no try/catch). -/
theorem c7_counterexample :
    (fanOut c7Beh (37 : Nat) [some 0, some 1]).1 = [(0, 37)] ∧
      decide ((1, 37) ∈ (fanOut c7Beh (37 : Nat) [some 0, some 1]).1) = false := by
  decide

/-- Claim C7 (amended): if a subscriber callback throws during a broadcast
fan-out pass, the subscribers registered before it are invoked and the
thrower is invoked, but the pass aborts with the escaping exception, so no
later subscriber of the same pass is invoked. -/
theorem c7_throw_aborts_pass {α : Type} (beh : Nat → CbBehavior) (e : α)
    (xs ys : List (Option Nat)) (t : Nat)
    (hxs : ∀ d ∈ actives xs, beh d = inertCb) (ht : (beh t).throws = true) :
    fanOut beh e (xs ++ some t :: ys) =
      ((actives xs).map (fun s => (s, e)) ++ [(t, e)], true) := by
  exact fanOutAux_throw beh e (xs ++ some t :: ys).length (xs ++ some t :: ys) 0 xs t ys
    (by omega) (by simp) hxs ht

theorem c7_witness :
    fanOut c7Beh (5 : Nat) [some 2, some 0, some 3] = ([(2, 5), (0, 5)], true) := by
  have := c7_throw_aborts_pass c7Beh (5 : Nat) [some 2] [some 3] 0 (by decide) (by decide)
  simpa [actives] using this

/-- A fan-out pass whose callback at the end of an inert stretch deletes
some slots (and whose remaining live callbacks are inert) invokes, after
that callback, exactly the live subscribers of the deleted-from array. -/
theorem fanOutAux_delete {α : Type} (beh : Nat → CbBehavior) (e : α) (ds : List Nat) :
    ∀ (fuel : Nat) (arr : List (Option Nat)) (i : Nat) (xs : List (Option Nat)) (c : Nat)
      (ys : List (Option Nat)),
      arr.length - i ≤ fuel →
      arr.drop i = xs ++ some c :: ys →
      (∀ d ∈ actives xs, beh d = inertCb) →
      beh c = { throws := false, deletes := ds } →
      (∀ d ∈ actives ((applyDeletes ds arr).drop (i + xs.length + 1)), beh d = inertCb) →
      fanOutAux beh e fuel arr i =
        ((actives xs).map (fun s => (s, e)) ++
          (c, e) ::
            (actives ((applyDeletes ds arr).drop (i + xs.length + 1))).map (fun s => (s, e)),
          false) := by
  intro fuel
  induction fuel with
  | zero =>
    intro arr i xs c ys hle hd _ _ _
    exfalso
    have := congrArg List.length hd
    simp [List.length_drop] at this
    omega
  | succ fuel ih =>
    intro arr i xs c ys hle hd hxs hc htail
    cases xs with
    | nil =>
      simp only [List.nil_append] at hd
      obtain ⟨h1, _⟩ := drop_cons_parts arr i (some c) ys hd
      have hi : i < arr.length := by
        rcases List.getElem?_eq_some.mp h1 with ⟨h, _⟩
        exact h
      have hrec := fanOutAux_inert beh e fuel (applyDeletes ds arr) (i + 1)
        (by rw [applyDeletes_length]; omega)
        (by simpa using htail)
      simp [fanOutAux, h1, hc, hrec, actives]
    | cons x xs' =>
      have hd' : arr.drop i = x :: (xs' ++ some c :: ys) := by simpa using hd
      obtain ⟨h1, h2⟩ := drop_cons_parts arr i x _ hd'
      have hi : i < arr.length := by
        rcases List.getElem?_eq_some.mp h1 with ⟨h, _⟩
        exact h
      have hidx : i + (x :: xs').length + 1 = (i + 1) + xs'.length + 1 := by
        simp only [List.length_cons]
        omega
      cases x with
      | none =>
        have hrec := ih arr (i + 1) xs' c ys (by omega) h2
          (by intro a ha; exact hxs a (by simpa [actives] using ha)) hc
          (by rw [← hidx]; exact htail)
        rw [hidx]
        simp [fanOutAux, h1, hrec, actives]
      | some d =>
        have hbd : beh d = inertCb := hxs d (by simp [actives])
        have hrec := ih arr (i + 1) xs' c ys (by omega) h2
          (by intro a ha; exact hxs a (by simp [actives, ha])) hc
          (by rw [← hidx]; exact htail)
        rw [hidx]
        simp [fanOutAux, h1, hbd, inertCb, applyDeletes_nil, hrec, actives]

/-- Every subscriber of the snapshot a status fan-out iterates is invoked,
in order, with the status value, no matter how the callbacks reassign the
subscriber field mid-pass. -/
theorem statusFanOutSnapshot_fst (eff : Nat → List Nat → List Nat) (s : SledgeStatus) :
    ∀ (snapshot cur : List Nat),
      (statusFanOutSnapshot eff s snapshot cur).1 = snapshot.map (fun d => (d, s)) := by
  intro snapshot
  induction snapshot with
  | nil => intro cur; rfl
  | cons d rest ih => intro cur; simp [statusFanOutSnapshot, ih]

/-- Claim C8 counterexample: in the two-channel variant's status fan-out,
subscriber `0`'s callback unsubscribes subscriber `1` (filter-based
capability of `subscribeStatus`) before `1` has been invoked; yet `1` is
still invoked in that very pass, because the unsubscribe reassigns the
field while the loop iterates the captured array.  The final subscriber
list shows the unsubscription did happen. -/
theorem c8_counterexample :
    (statusFanOutSnapshot c8Eff SledgeStatus.Connected [0, 1] [0, 1]).1 =
      [(0, SledgeStatus.Connected), (1, SledgeStatus.Connected)] ∧
      (statusFanOutSnapshot c8Eff SledgeStatus.Connected [0, 1] [0, 1]).2 = [0] := by
  decide

/-- Claim C8 (amended): in the single-channel variant's delete-based
broadcast fan-out, a subscriber unsubscribed mid-pass before its
invocation (slot `j`, cleared by the callback `c` which runs before it) is
not invoked, while every other not-yet-invoked live subscriber is still
invoked; in the two-channel variant's status fan-out, a mid-pass
unsubscription does not affect the pass in progress — every subscriber of
the iterated snapshot is still invoked, including any removed one. -/
theorem c8_unsubscribe_mid_pass {α : Type} (beh : Nat → CbBehavior) (e : α)
    (xs ys : List (Option Nat)) (c t j : Nat)
    (hj : xs.length < j)
    (hjt : (xs ++ some c :: ys)[j]? = some (some t))
    (hxs : ∀ d ∈ actives xs, beh d = inertCb)
    (hc : beh c = { throws := false, deletes := [j] })
    (htail : ∀ d ∈ actives (((xs ++ some c :: ys).set j none).drop (xs.length + 1)),
      beh d = inertCb)
    (honly : ∀ p, p < (xs ++ some c :: ys).length → p ≠ j →
      ¬ ((xs ++ some c :: ys)[p]? = some (some t)))
    (eff : Nat → List Nat → List Nat) (s : SledgeStatus) (snapshot cur : List Nat) :
    fanOut beh e (xs ++ some c :: ys) =
      ((actives xs).map (fun a => (a, e)) ++
        (c, e) ::
          (actives (((xs ++ some c :: ys).set j none).drop (xs.length + 1))).map
            (fun a => (a, e)), false) ∧
      (t, e) ∉ (fanOut beh e (xs ++ some c :: ys)).1 ∧
      (statusFanOutSnapshot eff s snapshot cur).1 = snapshot.map (fun d => (d, s)) := by
  have hset : applyDeletes [j] (xs ++ some c :: ys) = (xs ++ some c :: ys).set j none := rfl
  have hmain : fanOut beh e (xs ++ some c :: ys) =
      ((actives xs).map (fun a => (a, e)) ++
        (c, e) ::
          (actives (((xs ++ some c :: ys).set j none).drop (xs.length + 1))).map
            (fun a => (a, e)), false) := by
    have := fanOutAux_delete beh e [j] (xs ++ some c :: ys).length (xs ++ some c :: ys) 0
      xs c ys (by omega) (by simp) hxs hc (by simpa [hset] using htail)
    rw [hset] at this
    simpa [fanOut] using this
  refine ⟨hmain, ?_, statusFanOutSnapshot_fst eff s snapshot cur⟩
  rw [hmain]
  intro hmem
  have hlenA : j < (xs ++ some c :: ys).length := by
    rcases List.getElem?_eq_some.mp hjt with ⟨h, _⟩
    exact h
  have hmem2 : t ∈ actives xs ∨ t = c ∨
      t ∈ actives (((xs ++ some c :: ys).set j none).drop (xs.length + 1)) := by
    simpa using hmem
  rcases hmem2 with h1 | h1 | h1
  · obtain ⟨p, hp⟩ := actives_mem_getElem t xs h1
    have hplt : p < xs.length := by
      rcases List.getElem?_eq_some.mp hp with ⟨h, _⟩
      exact h
    refine honly p (by simp; omega) (by omega) ?_
    rw [List.getElem?_append]
    simpa [hplt] using hp
  · subst h1
    refine honly xs.length (by simp) (by omega) ?_
    rw [List.getElem?_append_right (Nat.le_refl _)]
    simp
  · obtain ⟨q, hq⟩ := actives_mem_getElem t _ h1
    rw [List.getElem?_drop] at hq
    by_cases hpj : xs.length + 1 + q = j
    · rw [hpj] at hq
      rw [List.getElem?_set] at hq
      simp [hlenA] at hq
    · have hne : j ≠ xs.length + 1 + q := fun h => hpj h.symm
      rw [List.getElem?_set_ne hne] at hq
      have hplt : xs.length + 1 + q < (xs ++ some c :: ys).length := by
        rcases List.getElem?_eq_some.mp hq with ⟨h, _⟩
        exact h
      exact honly (xs.length + 1 + q) hplt hpj hq

theorem c8_witness :
    fanOut c8Beh (4 : Nat) [some 5, some 9, some 7, some 8] = ([(5, 4), (9, 4), (8, 4)], false) ∧
      decide ((7, 4) ∈ (fanOut c8Beh (4 : Nat) [some 5, some 9, some 7, some 8]).1) = false ∧
      (statusFanOutSnapshot c8Eff SledgeStatus.Connected [0, 1] [0, 1]).1 =
        [(0, SledgeStatus.Connected), (1, SledgeStatus.Connected)] := by
  have H := c8_unsubscribe_mid_pass c8Beh (4 : Nat) [some 5] [some 7, some 8] 9 7 2
    (by decide) (by decide) (by decide) (by decide) (by decide) (by decide)
    c8Eff SledgeStatus.Connected [0, 1] [0, 1]
  refine ⟨?_, ?_, ?_⟩
  · have h := H.1
    simpa [actives] using h
  · rw [decide_eq_false_iff_not]
    exact H.2.1
  · have h := H.2.2
    simpa using h

/-- Claim C9 counterexample: `subscribeSyncAdmin` of the two-channel
variant has no return statement — it hands back no unsubscribe
capability, refuting that every subscribe method returns one. -/
theorem c9_counterexample : (subscribeSyncAdmin 5 []).2 = none := rfl

/-- Filtering twice with the same predicate equals filtering once. -/
theorem filter_idem {α : Type} (f : α → Bool) :
    ∀ l : List α, (l.filter f).filter f = l.filter f := by
  intro l
  induction l with
  | nil => rfl
  | cons a l' ih =>
    by_cases h : f a = true
    · simp [List.filter_cons, h, ih]
    · simp [List.filter_cons, h, ih]

/-- Claim C9 (amended): every subscribe method appends the callback to the
ordered subscriber sequence; `subscribeSynchronize` (single-channel) and
`subscribeStatus` (two-channel) return unsubscribe capabilities that are
idempotent — the delete-based one clears a captured slot, the filter-based
one filters the callback out — while `subscribeSyncAdmin` and
`subscribeSyncShared` return no capability at all. -/
theorem c9_subscribe_shapes (n i : Nat) (subs : List (Option Nat)) (l : List Nat) :
    (subscribeSynchronize n subs).1 = subs ++ [some n] ∧
      (subscribeSynchronize n subs).2 = subs.length ∧
      unsubscribeSynchronize i (unsubscribeSynchronize i subs) = unsubscribeSynchronize i subs ∧
      (subscribeStatus n l).1 = l ++ [n] ∧
      unsubscribeStatus n (unsubscribeStatus n l) = unsubscribeStatus n l ∧
      (subscribeSyncAdmin n l).1 = l ++ [n] ∧ (subscribeSyncAdmin n l).2 = none ∧
      (subscribeSyncShared n l).1 = l ++ [n] ∧ (subscribeSyncShared n l).2 = none := by
  refine ⟨rfl, rfl, ?_, rfl, ?_, rfl, rfl, rfl, rfl⟩
  · exact List.set_set none none subs i
  · exact filter_idem (fun m => m != n) l

/-- Claim C6 counterexample: on a single-channel client, two sends in the
same millisecond whose `Math.random()` draws are the distinct doubles
`0/2^53` and `1/2^53` produce the same correlation token, because that
variant's generator only keeps the floor of `random*256`, refuting that
back-to-back sends always generate distinct tokens. -/
theorem c6_counterexample :
    generateUniqueReturnId 1700000000000 0 = generateUniqueReturnId 1700000000000 1 ∧
      decide ((0 : Nat) = 1) = false := by
  constructor
  · decide
  · decide

/-- Appending on the left is cancellative for strings. -/
theorem string_append_left_cancel_iff (a b c : String) : a ++ b = a ++ c ↔ b = c := by
  constructor
  · intro h
    apply String.ext
    have hd := congrArg String.data h
    rw [String.data_append, String.data_append] at hd
    exact List.append_cancel_left hd
  · intro h
    rw [h]

/-- Claim C6 (amended): two sends issued in the same millisecond generate
distinct correlation tokens exactly when the part of the random draw the
token keeps differs — in the single-channel variant that kept part is the
floored byte `Math.floor(Math.random()*256)`, in the two-channel variant
it is `Math.random().toString(16).slice(-6)`; whenever the kept parts
coincide (in particular on equal draws) the two tokens are equal. -/
theorem c6_token_collision_iff (now u v nowMs : Nat) (r1 r2 : String) :
    (generateUniqueReturnId now u = generateUniqueReturnId now v ↔
      randomByte u = randomByte v) ∧
    (generateUniqueReturnIdTwoChannel nowMs r1 = generateUniqueReturnIdTwoChannel nowMs r2 ↔
      sliceLast6 r1 = sliceLast6 r2) := by
  constructor
  · unfold generateUniqueReturnId
    constructor
    · intro h; omega
    · intro h; omega
  · unfold generateUniqueReturnIdTwoChannel
    exact string_append_left_cancel_iff _ _ _

